import Mathlib

/-!
Verification of the `firefuse-react` authentication provider
(`src/components/FirefuseProvider.tsx`).

The development shallowly embeds the provider's logic:

* `btoa` / `atob` — the browser base64 primitives used to encode the
  `state` query parameter (fallible code is `Option`-valued: `none`
  models a thrown `InvalidCharacterError`);
* a JSON fragment: `JSON.stringify` on flat objects of string fields
  (the `{redirectUrl}` and `{token, redirectUrl?}` payloads) and a
  matching `JSON.parse` for that fragment;
* the provider variants' operations (`loginWithRedirect`,
  `registerWithRedirect`, `logout`, `getLoginUrl`, `getRegisterUrl`,
  `getAuthUrl`), the mount-time initialization sequence, the
  auth-state subscription state machine and the published context
  value.  Browser effects (`window.location.replace`, `signOut`)
  are reified as an event list.
-/

namespace Firefuse

/-! ## Base64 (`btoa` / `atob`) -/

/-- The standard base64 alphabet, as used by `btoa`/`atob`. -/
def b64Alphabet : List Char :=
  "ABCDEFGHIJKLMNOPQRSTUVWXYZabcdefghijklmnopqrstuvwxyz0123456789+/".toList

/-- The base64 character for a sextet value (callers keep `n < 64`). -/
def b64Char (n : Nat) : Char := b64Alphabet.getD n 'A'

/-- The sextet value of a base64 character; `none` for characters outside
the alphabet (on which `atob` throws). -/
def b64Index (c : Char) : Option Nat := b64Alphabet.findIdx? (· = c)

/-- Base64-encode a byte sequence, with `=` padding, as `btoa` does. -/
def b64EncodeBytes : List Nat → List Char
  | [] => []
  | [a] => [b64Char (a / 4), b64Char (a % 4 * 16), '=', '=']
  | [a, b] => [b64Char (a / 4), b64Char (a % 4 * 16 + b / 16), b64Char (b % 16 * 4), '=']
  | a :: b :: c :: rest =>
      b64Char (a / 4) :: b64Char (a % 4 * 16 + b / 16) ::
      b64Char (b % 16 * 4 + c / 64) :: b64Char (c % 64) :: b64EncodeBytes rest

/-- Base64-decode a whitespace-free character sequence, as the forgiving
decode behind `atob` does: a final quantum of two or three characters may
omit the `=` padding (a final quantum of one character, or a `=` anywhere
but as trailing padding of a length divisible by four, is an error);
`none` models the thrown `InvalidCharacterError`. -/
def b64DecodeBytes : List Char → Option (List Nat)
  | [] => some []
  | [_] => none
  | [p, q] =>
    (b64Index p).bind fun x =>
    (b64Index q).map fun y => [x * 4 + y / 16]
  | [p, q, r] =>
    (b64Index p).bind fun x =>
    (b64Index q).bind fun y =>
    (b64Index r).map fun z => [x * 4 + y / 16, y % 16 * 16 + z / 4]
  | p :: q :: r :: s :: rest =>
    (b64Index p).bind fun x =>
    (b64Index q).bind fun y =>
    if r = '=' then
      if s = '=' then
        if rest = [] then some [x * 4 + y / 16] else none
      else none
    else
      (b64Index r).bind fun z =>
      if s = '=' then
        if rest = [] then some [x * 4 + y / 16, y % 16 * 16 + z / 4] else none
      else
        (b64Index s).bind fun w =>
        (b64DecodeBytes rest).map fun tail =>
          (x * 4 + y / 16) :: (y % 16 * 16 + z / 4) :: (z % 4 * 64 + w) :: tail

/-- `window.btoa`: encodes a Latin-1 string; throws (`none`) if a code
point exceeds 255. -/
def btoa (s : String) : Option String :=
  if s.data.all (fun c => c.toNat ≤ 255) then
    some ⟨b64EncodeBytes (s.data.map Char.toNat)⟩
  else none

/-- ASCII whitespace removed by the forgiving base64 decode:
TAB, LF, FF, CR and SPACE. -/
def isB64Ws (c : Char) : Bool :=
  c = '\t' || c = '\n' || c = Char.ofNat 12 || c = '\r' || c = ' '

/-- `window.atob`: strips ASCII whitespace, then decodes the base64
string to the string of its bytes; throws (`none`) on invalid input. -/
def atob (s : String) : Option String :=
  (b64DecodeBytes (s.data.filter (fun c => !isB64Ws c))).map fun bs => ⟨bs.map Char.ofNat⟩

theorem b64Index_b64Char {n : Nat} (h : n < 64) : b64Index (b64Char n) = some n := by
  have : ∀ m : Fin 64, b64Index (b64Char m.val) = some m.val := by decide
  exact this ⟨n, h⟩

theorem b64Char_ne_pad {n : Nat} (h : n < 64) : b64Char n ≠ '=' := by
  have : ∀ m : Fin 64, b64Char m.val ≠ '=' := by decide
  exact this ⟨n, h⟩

theorem isB64Ws_b64Char {n : Nat} (h : n < 64) : isB64Ws (b64Char n) = false := by
  have : ∀ m : Fin 64, isB64Ws (b64Char m.val) = false := by decide
  exact this ⟨n, h⟩

theorem isB64Ws_pad : isB64Ws '=' = false := rfl

/-- An encoded byte sequence contains no ASCII whitespace, so the
forgiving decode's whitespace stripping leaves it unchanged. -/
theorem b64_filter_encode : ∀ bs : List Nat, (∀ b ∈ bs, b < 256) →
    (b64EncodeBytes bs).filter (fun c => !isB64Ws c) = b64EncodeBytes bs
  | [], _ => rfl
  | [a], h => by
    have ha : a < 256 := h a (by simp)
    simp [b64EncodeBytes, List.filter, isB64Ws_pad,
      isB64Ws_b64Char (show a / 4 < 64 by omega),
      isB64Ws_b64Char (show a % 4 * 16 < 64 by omega)]
  | [a, b], h => by
    have ha : a < 256 := h a (by simp)
    have hb : b < 256 := h b (by simp)
    simp [b64EncodeBytes, List.filter, isB64Ws_pad,
      isB64Ws_b64Char (show a / 4 < 64 by omega),
      isB64Ws_b64Char (show a % 4 * 16 + b / 16 < 64 by omega),
      isB64Ws_b64Char (show b % 16 * 4 < 64 by omega)]
  | a :: b :: c :: rest, h => by
    have ha : a < 256 := h a (by simp)
    have hb : b < 256 := h b (by simp)
    have hc : c < 256 := h c (by simp)
    have ih := b64_filter_encode rest (fun x hx => h x (by simp [hx]))
    simp [b64EncodeBytes, List.filter, ih,
      isB64Ws_b64Char (show a / 4 < 64 by omega),
      isB64Ws_b64Char (show a % 4 * 16 + b / 16 < 64 by omega),
      isB64Ws_b64Char (show b % 16 * 4 + c / 64 < 64 by omega),
      isB64Ws_b64Char (show c % 64 < 64 by omega)]

theorem b64_arith1 {a b : Nat} (hb : b < 256) : (a % 4 * 16 + b / 16) / 16 = a % 4 := by
  rw [Nat.mul_comm (a % 4) 16, Nat.mul_add_div (by norm_num)]
  have : b / 16 / 16 = 0 := Nat.div_eq_of_lt (by omega)
  omega

theorem b64_arith2 {a b : Nat} (hb : b < 256) : (a % 4 * 16 + b / 16) % 16 = b / 16 := by
  rw [Nat.mul_comm (a % 4) 16, Nat.mul_add_mod]
  exact Nat.mod_eq_of_lt (by omega)

theorem b64_arith3 {b c : Nat} (hc : c < 256) : (b % 16 * 4 + c / 64) / 4 = b % 16 := by
  rw [Nat.mul_comm (b % 16) 4, Nat.mul_add_div (by norm_num)]
  have : c / 64 / 4 = 0 := Nat.div_eq_of_lt (by omega)
  omega

theorem b64_arith4 {b c : Nat} (hc : c < 256) : (b % 16 * 4 + c / 64) % 4 = c / 64 := by
  rw [Nat.mul_comm (b % 16) 4, Nat.mul_add_mod]
  exact Nat.mod_eq_of_lt (by omega)

theorem b64_roundtrip : ∀ bs : List Nat, (∀ b ∈ bs, b < 256) →
    b64DecodeBytes (b64EncodeBytes bs) = some bs
  | [], _ => rfl
  | [a], h => by
    have ha : a < 256 := h a (by simp)
    have h1 : a / 4 < 64 := by omega
    have h2 : a % 4 * 16 < 64 := by omega
    simp [b64EncodeBytes, b64DecodeBytes, b64Index_b64Char h1, b64Index_b64Char h2,
      b64_arith1 (a := a) (b := 0)]
    omega
  | [a, b], h => by
    have ha : a < 256 := h a (by simp)
    have hb : b < 256 := h b (by simp)
    have h1 : a / 4 < 64 := by omega
    have h2 : a % 4 * 16 + b / 16 < 64 := by omega
    have h3 : b % 16 * 4 < 64 := by omega
    simp [b64EncodeBytes, b64DecodeBytes, b64Index_b64Char h1, b64Index_b64Char h2,
      b64Index_b64Char h3, b64Char_ne_pad h3, b64_arith1 hb,
      b64_arith2 hb, b64_arith3 (b := b) (c := 0), b64_arith4 (b := b) (c := 0)]
    constructor <;> omega
  | a :: b :: c :: rest, h => by
    have ha : a < 256 := h a (by simp)
    have hb : b < 256 := h b (by simp)
    have hc : c < 256 := h c (by simp)
    have h1 : a / 4 < 64 := by omega
    have h2 : a % 4 * 16 + b / 16 < 64 := by omega
    have h3 : b % 16 * 4 + c / 64 < 64 := by omega
    have h4 : c % 64 < 64 := by omega
    have ih := b64_roundtrip rest (fun x hx => h x (by simp [hx]))
    simp [b64EncodeBytes, b64DecodeBytes, b64Index_b64Char h1, b64Index_b64Char h2,
      b64Index_b64Char h3, b64Index_b64Char h4, b64Char_ne_pad h3, b64Char_ne_pad h4,
      ih, b64_arith1 hb, b64_arith2 hb, b64_arith3 hc, b64_arith4 hc]
    refine ⟨by omega, by omega, by omega⟩

theorem char_ofNat_toNat (c : Char) : Char.ofNat c.toNat = c := by
  have hv : Nat.isValidChar c.toNat := c.valid
  apply Char.eq_of_val_eq
  simp only [Char.ofNat, dif_pos hv, Char.ofNatAux]
  apply UInt32.eq_of_toBitVec_eq
  simp only [BitVec.ofNatLt]
  apply BitVec.eq_of_toNat_eq
  rfl

theorem btoa_atob_roundtrip {s enc : String} (h : btoa s = some enc) :
    atob enc = some s := by
  unfold btoa at h
  split at h
  case isFalse => exact absurd h (by simp)
  case isTrue hall =>
    have henc : enc = ⟨b64EncodeBytes (s.data.map Char.toNat)⟩ := by
      cases h
      rfl
    subst henc
    have hbytes : ∀ b ∈ s.data.map Char.toNat, b < 256 := by
      intro b hb
      simp only [List.mem_map] at hb
      obtain ⟨c, hc, rfl⟩ := hb
      have := (List.all_eq_true.mp hall) c hc
      simp only [decide_eq_true_eq] at this
      omega
    unfold atob
    rw [show (⟨b64EncodeBytes (s.data.map Char.toNat)⟩ : String).data
          = b64EncodeBytes (s.data.map Char.toNat) from rfl]
    rw [b64_filter_encode _ hbytes, b64_roundtrip _ hbytes]
    simp only [Option.map_some', Option.some.injEq]
    apply String.ext
    simp only [List.map_map]
    calc (s.data.map (Char.ofNat ∘ Char.toNat))
        = s.data.map id := List.map_congr_left fun c _ => char_ofNat_toNat c
      _ = s.data := List.map_id s.data

/-! ## JSON fragment

`JSON.stringify` / `JSON.parse` restricted to the flat objects of string
fields that the provider exchanges: `{redirectUrl}` outbound and
`{token, redirectUrl?}` inbound.  The parser accepts the canonical
serialized form (no whitespace, at most two fields); `\uXXXX` escape
sequences are not modelled (the parser rejects them, while
`JSON.parse` would accept them — no claim exercises that corner). -/

/-- Hex digit used by `JSON.stringify` for control-character escapes. -/
def hexDigit (n : Nat) : Char := "0123456789abcdef".toList.getD n '0'

/-- The escape `JSON.stringify` applies to one character inside a string
literal. -/
def escChar (c : Char) : List Char :=
  if c = '"' then ['\\', '"']
  else if c = '\\' then ['\\', '\\']
  else if c = '\n' then ['\\', 'n']
  else if c = '\r' then ['\\', 'r']
  else if c = '\t' then ['\\', 't']
  else if c = Char.ofNat 8 then ['\\', 'b']
  else if c = Char.ofNat 12 then ['\\', 'f']
  else if c.toNat < 32 then ['\\', 'u', '0', '0', hexDigit (c.toNat / 16), hexDigit (c.toNat % 16)]
  else [c]

/-- Escape a character list as `JSON.stringify` does between the quotes. -/
def escapeChars : List Char → List Char
  | [] => []
  | c :: l => escChar c ++ escapeChars l

/-- A JSON string literal: `"` + escaped body + `"`. -/
def jsonQuote (s : String) : List Char := '"' :: (escapeChars s.data ++ ['"'])

/-- The comma-separated field list of a serialized flat object. -/
def fieldsChars : List (String × String) → List Char
  | [] => []
  | [kv] => jsonQuote kv.1 ++ ':' :: jsonQuote kv.2
  | kv :: rest => jsonQuote kv.1 ++ ':' :: jsonQuote kv.2 ++ ',' :: fieldsChars rest

/-- `JSON.stringify` on a flat object of string fields, in field order:
`{"k1":"v1","k2":"v2"}`. -/
def jsonStringifyObj (fields : List (String × String)) : String :=
  ⟨'{' :: (fieldsChars fields ++ ['}'])⟩

/-- Inverse of a simple escape character (no `\uXXXX` forms). -/
def unescChar (e : Char) : Option Char :=
  if e = '"' then some '"'
  else if e = '\\' then some '\\'
  else if e = '/' then some '/'
  else if e = 'n' then some '\n'
  else if e = 'r' then some '\r'
  else if e = 't' then some '\t'
  else if e = 'b' then some (Char.ofNat 8)
  else if e = 'f' then some (Char.ofNat 12)
  else none

/-- Consume the body of a string literal up to its closing quote,
resolving escapes; returns the parsed string and the remaining input. -/
def takeStr : List Char → List Char → Option (String × List Char)
  | [], _ => none
  | c :: r, acc =>
    if c = '"' then some (⟨acc.reverse⟩, r)
    else if c = '\\' then
      match r with
      | [] => none
      | e :: r2 =>
        match unescChar e with
        | some d => takeStr r2 (d :: acc)
        | none => none
    else takeStr r (c :: acc)

/-- Parse one JSON string literal (leading quote included). -/
def parseJStr : List Char → Option (String × List Char)
  | '"' :: r => takeStr r []
  | _ => none

/-- Parse one `"key":"value"` pair. -/
def parsePair (l : List Char) : Option ((String × String) × List Char) :=
  (parseJStr l).bind fun kr =>
    match kr.2 with
    | ':' :: r2 => (parseJStr r2).map fun vr => ((kr.1, vr.1), vr.2)
    | _ => none

/-- `JSON.parse` on the canonical serialized form of a flat object with
at most two string fields. -/
def jsonParseObj (s : String) : Option (List (String × String)) :=
  match s.data with
  | '{' :: r =>
    if r = ['}'] then some []
    else
      (parsePair r).bind fun p1 =>
      match p1.2 with
      | ['}'] => some [p1.1]
      | ',' :: r2 =>
        (parsePair r2).bind fun p2 =>
        match p2.2 with
        | ['}'] => some [p1.1, p2.1]
        | _ => none
      | _ => none
  | _ => none

/-- A character `JSON.stringify` leaves unescaped: not a quote, not a
backslash, not a control character. -/
def safeChar (c : Char) : Bool := c ≠ '"' && c ≠ '\\' && 31 < c.toNat

/-- All characters unescaped by `JSON.stringify`. -/
def safeStr (s : String) : Bool := s.data.all safeChar

theorem escChar_safe {c : Char} (h : safeChar c = true) : escChar c = [c] := by
  simp only [safeChar, Bool.and_eq_true, bne_iff_ne, ne_eq, decide_eq_true_eq] at h
  obtain ⟨⟨h1, h2⟩, h3⟩ := h
  have hn : c ≠ '\n' := by intro he; subst he; simp at h3
  have hr : c ≠ '\r' := by intro he; subst he; simp at h3
  have ht : c ≠ '\t' := by intro he; subst he; simp at h3
  have hb : c ≠ Char.ofNat 8 := by intro he; subst he; simp at h3
  have hf : c ≠ Char.ofNat 12 := by intro he; subst he; simp at h3
  have h32 : ¬ c.toNat < 32 := by omega
  simp [escChar, h1, h2, hn, hr, ht, hb, hf, h32]

theorem escapeChars_safe : ∀ l : List Char, (∀ c ∈ l, safeChar c = true) →
    escapeChars l = l
  | [], _ => rfl
  | c :: l, h => by
    rw [escapeChars, escChar_safe (h c (by simp)),
      escapeChars_safe l (fun x hx => h x (by simp [hx]))]
    rfl

theorem takeStr_cons (c : Char) (r acc : List Char) :
    takeStr (c :: r) acc =
      if c = '"' then some (⟨acc.reverse⟩, r)
      else if c = '\\' then
        match r with
        | [] => none
        | e :: r2 =>
          match unescChar e with
          | some d => takeStr r2 (d :: acc)
          | none => none
      else takeStr r (c :: acc) := by
  rw [takeStr.eq_def]

theorem takeStr_safe : ∀ (l : List Char), (∀ c ∈ l, safeChar c = true) →
    ∀ (acc rest : List Char),
    takeStr (l ++ '"' :: rest) acc = some (⟨acc.reverse ++ l⟩, rest)
  | [], _, acc, rest => by
    rw [List.nil_append, takeStr_cons, if_pos rfl]
    simp
  | c :: l, h, acc, rest => by
    have hc := h c (by simp)
    simp only [safeChar, Bool.and_eq_true, bne_iff_ne, ne_eq, decide_eq_true_eq] at hc
    obtain ⟨⟨h1, h2⟩, _⟩ := hc
    rw [List.cons_append, takeStr_cons, if_neg h1, if_neg h2,
      takeStr_safe l (fun x hx => h x (by simp [hx])) (c :: acc) rest]
    simp

/-- `safeStr` spelled out over the character list. -/
theorem safeStr_chars {s : String} (h : safeStr s = true) : ∀ c ∈ s.data, safeChar c = true :=
  List.all_eq_true.mp h

theorem parseJStr_quote {v : String} (hv : safeStr v = true) (rest : List Char) :
    parseJStr (jsonQuote v ++ rest) = some (v, rest) := by
  unfold jsonQuote
  rw [escapeChars_safe v.data (safeStr_chars hv)]
  rw [show ('"' :: (v.data ++ ['"'])) ++ rest = '"' :: (v.data ++ '"' :: rest) by simp]
  rw [parseJStr, takeStr_safe v.data (safeStr_chars hv) [] rest]
  simp

theorem parsePair_quote {k v : String} (hk : safeStr k = true) (hv : safeStr v = true)
    (rest : List Char) :
    parsePair (jsonQuote k ++ ':' :: (jsonQuote v ++ rest)) = some ((k, v), rest) := by
  unfold parsePair
  rw [parseJStr_quote hk]
  simp only [Option.some_bind]
  show (parseJStr (jsonQuote v ++ rest)).map (fun vr => ((k, vr.1), vr.2)) = some ((k, v), rest)
  rw [parseJStr_quote hv]
  rfl

theorem jsonQuote_ne_nil (s : String) : jsonQuote s ≠ [] := by
  simp [jsonQuote]

theorem jsonParseObj_single {k v : String} (hk : safeStr k = true) (hv : safeStr v = true) :
    jsonParseObj (jsonStringifyObj [(k, v)]) = some [(k, v)] := by
  unfold jsonStringifyObj jsonParseObj fieldsChars
  show (if jsonQuote k ++ ':' :: jsonQuote v ++ ['}'] = ['}'] then some []
    else
      (parsePair (jsonQuote k ++ ':' :: jsonQuote v ++ ['}'])).bind fun p1 =>
      match p1.2 with
      | ['}'] => some [p1.1]
      | ',' :: r2 =>
        (parsePair r2).bind fun p2 =>
        match p2.2 with
        | ['}'] => some [p1.1, p2.1]
        | _ => none
      | _ => none) = some [(k, v)]
  have hne : jsonQuote k ++ ':' :: jsonQuote v ++ ['}'] ≠ ['}'] := by
    cases hq : jsonQuote k with
    | nil => exact absurd hq (jsonQuote_ne_nil k)
    | cons a l => simp [jsonQuote] at hq ⊢
  rw [if_neg hne]
  rw [show jsonQuote k ++ ':' :: jsonQuote v ++ ['}']
        = jsonQuote k ++ ':' :: (jsonQuote v ++ ['}']) by simp]
  rw [parsePair_quote hk hv]
  rfl

theorem jsonParseObj_double {k1 v1 k2 v2 : String} (hk1 : safeStr k1 = true)
    (hv1 : safeStr v1 = true) (hk2 : safeStr k2 = true) (hv2 : safeStr v2 = true) :
    jsonParseObj (jsonStringifyObj [(k1, v1), (k2, v2)]) = some [(k1, v1), (k2, v2)] := by
  unfold jsonStringifyObj jsonParseObj fieldsChars
  show (if jsonQuote k1 ++ ':' :: jsonQuote v1 ++ ',' :: fieldsChars [(k2, v2)] ++ ['}'] = ['}']
      then some []
    else
      (parsePair (jsonQuote k1 ++ ':' :: jsonQuote v1 ++ ',' :: fieldsChars [(k2, v2)] ++ ['}'])).bind
        fun p1 =>
      match p1.2 with
      | ['}'] => some [p1.1]
      | ',' :: r2 =>
        (parsePair r2).bind fun p2 =>
        match p2.2 with
        | ['}'] => some [p1.1, p2.1]
        | _ => none
      | _ => none) = some [(k1, v1), (k2, v2)]
  have hne : jsonQuote k1 ++ ':' :: jsonQuote v1 ++ ',' :: fieldsChars [(k2, v2)] ++ ['}'] ≠ ['}'] := by
    cases hq : jsonQuote k1 with
    | nil => exact absurd hq (jsonQuote_ne_nil k1)
    | cons a l => simp [jsonQuote] at hq ⊢
  rw [if_neg hne]
  rw [show jsonQuote k1 ++ ':' :: jsonQuote v1 ++ ',' :: fieldsChars [(k2, v2)] ++ ['}']
        = jsonQuote k1 ++ ':' :: (jsonQuote v1 ++ (',' :: (fieldsChars [(k2, v2)] ++ ['}']))) by simp]
  rw [parsePair_quote hk1 hv1]
  simp only [Option.some_bind]
  show ((parsePair (fieldsChars [(k2, v2)] ++ ['}'])).bind fun p2 =>
      match p2.2 with
      | ['}'] => some [(k1, v1), p2.1]
      | _ => none) = some [(k1, v1), (k2, v2)]
  rw [show fieldsChars [(k2, v2)] ++ ['}'] = jsonQuote k2 ++ ':' :: (jsonQuote v2 ++ ['}']) by
    simp [fieldsChars]]
  rw [parsePair_quote hk2 hv2]
  rfl

/-! ## The provider model

`FirefuseProvider` from `src/components/FirefuseProvider.tsx`.  The
claims cite two variants of the file: the variant exposing
`getAuthUrl` with the `logoutUrl` ref (namespace `V1`) and the variant
exposing `getLoginUrl`/`getRegisterUrl` whose `logout` takes
`noRedirect` (namespace `V3`).  Browser and SDK side effects are
reified as an `Ev` list; a thrown exception is `none`. -/

/-- Opaque firebase user object (only its presence matters here). -/
structure UserT where
  uid : String
deriving DecidableEq, Repr

/-- Provider configuration props (`domain`, `redirectUrl`, `debug`;
`firebaseAuth` and `loader` carry no data the claims need). -/
structure Config where
  domain : String
  redirectUrl : String
  debug : Bool
deriving DecidableEq, Repr

/-- A browser/SDK side effect performed by an operation, in order. -/
inductive Ev where
  /-- `window.location.replace(url)` -/
  | navigate (url : String)
  /-- `signOut(firebaseAuth)` -/
  | signOutCall
deriving DecidableEq, Repr

/-- JavaScript `a || b` on an optional string (`undefined` and `""` are
falsy). -/
def jsOr (a : Option String) (b : String) : String :=
  match a with
  | some s => if s = "" then b else s
  | none => b

/-- JavaScript `a || b` where the fallback expression may itself throw
(`btoa` inside the template literal); short-circuits like `||`. -/
def jsOrElse (a : Option String) (b : Option String) : Option String :=
  match a with
  | some s => if s = "" then b else some s
  | none => b

/-- `btoa(JSON.stringify({redirectUrl}))` — the outbound state blob. -/
def encodeRedirectState (ru : String) : Option String :=
  btoa (jsonStringifyObj [("redirectUrl", ru)])

/-- `https://${domain}/${page}?state=${btoa(JSON.stringify({redirectUrl}))}` -/
def authPageUrl (cfg : Config) (page : String) (ru : String) : Option String :=
  (encodeRedirectState ru).map fun st =>
    "https://" ++ cfg.domain ++ "/" ++ page ++ "?state=" ++ st

/-- Optional params of `loginWithRedirect` / `registerWithRedirect` /
`getLoginUrl` / `getRegisterUrl`. -/
structure LoginParams where
  redirectUrl : Option String := none
deriving DecidableEq, Repr

/-! ### Variant `V3`: `getLoginUrl`/`getRegisterUrl`, logout with `noRedirect` -/

namespace V3

/-- Optional params of `logout`. -/
structure LogoutParams where
  redirectUrl : Option String := none
  noRedirect : Bool := false
deriving DecidableEq, Repr

/-- `loginWithRedirect`: builds the sign-in URL and navigates to it via
`window.location.replace`. -/
def loginWithRedirect (cfg : Config) (params : LoginParams) : Option (List Ev) :=
  (authPageUrl cfg "sign-in" (jsOr params.redirectUrl cfg.redirectUrl)).map
    fun url => [Ev.navigate url]

/-- `registerWithRedirect`: same as `loginWithRedirect` but targets
`/sign-up`. -/
def registerWithRedirect (cfg : Config) (params : LoginParams) : Option (List Ev) :=
  (authPageUrl cfg "sign-up" (jsOr params.redirectUrl cfg.redirectUrl)).map
    fun url => [Ev.navigate url]

/-- `getLoginUrl`: returns the sign-in URL; performs no effect. -/
def getLoginUrl (cfg : Config) (params : LoginParams) : Option String × List Ev :=
  (authPageUrl cfg "sign-in" (jsOr params.redirectUrl cfg.redirectUrl), [])

/-- `getRegisterUrl`: returns the sign-up URL; performs no effect. -/
def getRegisterUrl (cfg : Config) (params : LoginParams) : Option String × List Ev :=
  (authPageUrl cfg "sign-up" (jsOr params.redirectUrl cfg.redirectUrl), [])

/-- `logout`: unless `noRedirect`, navigates to
`params.redirectUrl || <constructed sign-in URL>`; then awaits
`signOut`.  The navigation statement executes before the awaited
sign-out call. -/
def logout (cfg : Config) (params : LogoutParams) : Option (List Ev) :=
  if params.noRedirect then some [Ev.signOutCall]
  else
    (jsOrElse params.redirectUrl (authPageUrl cfg "sign-in" cfg.redirectUrl)).map
      fun url => [Ev.navigate url, Ev.signOutCall]

end V3

/-! ### Variant `V1`: `getAuthUrl` with the `logoutUrl` ref -/

namespace V1

/-- Optional params of `logout` (`noRedirect` does not exist in this
variant). -/
structure LogoutParams where
  redirectUrl : Option String := none
deriving DecidableEq, Repr

/-- Optional params of `getAuthUrl`. -/
structure AuthUrlParams where
  redirectUrl : Option String := none
  page : Option String := none
deriving DecidableEq, Repr

/-- `logout`: stores `params.redirectUrl || <constructed sign-in URL>`
into the `logoutUrl` ref, then awaits `signOut`; it does not navigate.
The first component of the result is the new ref value. -/
def logout (cfg : Config) (params : LogoutParams) (_logoutUrl : Option String) :
    Option (Option String × List Ev) :=
  (jsOrElse params.redirectUrl (authPageUrl cfg "sign-in" cfg.redirectUrl)).map
    fun url => (some url, [Ev.signOutCall])

/-- `getAuthUrl`: returns `logoutUrl.current || <constructed URL>`,
then clears the ref; performs no navigation.  Result: the returned
URL, the new ref value, and the (empty) effect list. -/
def getAuthUrl (cfg : Config) (params : AuthUrlParams) (logoutUrl : Option String) :
    Option (String × Option String × List Ev) :=
  (jsOrElse logoutUrl
      (authPageUrl cfg (jsOr params.page "sign-in") (jsOr params.redirectUrl cfg.redirectUrl))).map
    fun authUrl => (authUrl, none, [])

end V1

/-! ### Mount-time initialization (both variants)

```js
const searchParams = new URLSearchParams(window.location.search);
const state = searchParams.get('state');
if (state) {
  const { token } = JSON.parse(atob(state));
  signInWithCustomToken(firebaseAuth, token)
    .then((user) => { ...; window.history.replaceState({}, document.title, window.location.pathname); })
    .catch(logger.error)
    .finally(() => { setTokenChecked(true); });
} else { ...; setTokenChecked(true); }
```

`JSON.parse(atob(state))` runs synchronously with no try/catch around
it, so a decode failure is modelled as `Except.error`.  Only the
promise returned by `signInWithCustomToken` has a `.catch`. -/

/-- The visible browser URL. -/
structure Location where
  pathname : String
  query : List (String × String)
  fragment : Option String
deriving DecidableEq, Repr

/-- `searchParams.get(k)`: first value bound to `k`, or `null`. -/
def getParam (q : List (String × String)) (k : String) : Option String :=
  (q.find? (fun kv => kv.1 = k)).map (fun kv => kv.2)

/-- Environment-chosen result of `signInWithCustomToken`. -/
inductive ExchangeOutcome where
  | success (user : UserT)
  | failure
deriving DecidableEq, Repr

/-- What the initialization effect did. -/
structure InitResult where
  /-- `some t` iff `signInWithCustomToken` was called, with token `t`
  (`t = none` models passing `undefined`). -/
  signInToken : Option (Option String)
  /-- whether `setTokenChecked(true)` ran -/
  tokenChecked : Bool
  /-- the visible URL afterwards -/
  finalLoc : Location
deriving DecidableEq, Repr

/-- The value of the `token` field of the parsed state payload
(`undefined` when absent). -/
def tokenField (fields : List (String × String)) : Option String :=
  getParam fields "token"

/-- The mount effect.  `outcome` is the environment's response to the
custom-token sign-in call.  `Except.error e` models an uncaught
synchronous exception `e` escaping the effect.  `if (state)` is JS
truthiness: absent (`null`) and the empty string both take the
no-token branch. -/
def initSequence (loc : Location) (outcome : Option String → ExchangeOutcome) :
    Except String InitResult :=
  match getParam loc.query "state" with
  | none => .ok ⟨none, true, loc⟩
  | some st =>
    if st = "" then .ok ⟨none, true, loc⟩
    else
    match atob st with
    | none => .error "InvalidCharacterError"
    | some json =>
      match jsonParseObj json with
      | none => .error "SyntaxError"
      | some fields =>
        let token := tokenField fields
        match outcome token with
        | .success _ =>
          .ok ⟨some token, true, { pathname := loc.pathname, query := [], fragment := none }⟩
        | .failure => .ok ⟨some token, true, loc⟩

/-! ### Auth-state subscription and published context value -/

/-- The provider's `State` (`{loading, user}`). -/
structure SessionState where
  loading : Bool
  user : Option UserT
deriving DecidableEq, Repr

/-- Initial state at mount: `{loading: true, user: null}`. -/
def sessionInit : SessionState := ⟨true, none⟩

/-- The `onAuthStateChanged` callback: each event replaces the state
with `{loading: false, user}`. -/
def sessionStep (_s : SessionState) (user : Option UserT) : SessionState :=
  ⟨false, user⟩

/-- State after a sequence of auth-state events. -/
def sessionRun (events : List (Option UserT)) : SessionState :=
  events.foldl sessionStep sessionInit

/-- The context value handed to consumers. -/
structure ContextValue where
  isLoading : Bool
  isAuthenticated : Bool
  user : Option UserT
deriving DecidableEq, Repr

/-- The provider's render: while `state.loading` it renders the loader
and publishes no context value; otherwise it publishes
`{user, isAuthenticated: !!user, isLoading: loading}` computed from the
one current state. -/
def publish (s : SessionState) : Option ContextValue :=
  if s.loading then none
  else some ⟨s.loading, s.user.isSome, s.user⟩

/-! ## Derived notions used by the claims -/

/-- All code points fit in one byte (the domain of `btoa`). -/
def latin1 (s : String) : Bool := s.data.all (fun c => c.toNat ≤ 255)

/-- Decode a `state` query-parameter value the way the mount effect
does: `JSON.parse(atob(state))`. -/
def decodeStatePayload (st : String) : Option (List (String × String)) :=
  (atob st).bind jsonParseObj

/-- The fields of the inbound `{token, redirectUrl?}` payload. -/
def tokenStateFields (token : String) : Option String → List (String × String)
  | none => [("token", token)]
  | some r => [("token", token), ("redirectUrl", r)]

/-- The inbound state blob produced by the hosted sign-in page:
`base64(JSON({token, redirectUrl?}))`. -/
def jsonTokenPayload (token : String) (ru : Option String) : String :=
  jsonStringifyObj (tokenStateFields token ru)

/-- `base64(JSON({token, redirectUrl?}))`. -/
def encodeTokenState (token : String) (ru : Option String) : Option String :=
  btoa (jsonTokenPayload token ru)

/-- `V1.loginWithRedirect` (same construction as in `V3`): builds the
sign-in URL and navigates to it. -/
def V1.loginWithRedirect (cfg : Config) (params : LoginParams) : Option (List Ev) :=
  (authPageUrl cfg "sign-in" (jsOr params.redirectUrl cfg.redirectUrl)).map
    fun url => [Ev.navigate url]

/-- `V1.registerWithRedirect`: same but targets `/sign-up`. -/
def V1.registerWithRedirect (cfg : Config) (params : LoginParams) : Option (List Ev) :=
  (authPageUrl cfg "sign-up" (jsOr params.redirectUrl cfg.redirectUrl)).map
    fun url => [Ev.navigate url]

/-- Whether every navigation in an effect list happens only after the
sign-out call (the ordering the spec asserts for `logout`). -/
def signOutPrecedesNav : List Ev → Bool
  | [] => true
  | Ev.signOutCall :: _ => true
  | Ev.navigate _ :: _ => false

theorem escapeChars_append (l1 l2 : List Char) :
    escapeChars (l1 ++ l2) = escapeChars l1 ++ escapeChars l2 := by
  induction l1 with
  | nil => rfl
  | cons c l ih => simp [escapeChars, ih]

/-- A successfully encoded `{redirectUrl}` blob decodes back to the
one-field object. -/
theorem encodeRedirectState_ok {r : String} (hs : safeStr r = true) (hl : latin1 r = true) :
    ∃ st, encodeRedirectState r = some st
      ∧ decodeStatePayload st = some [("redirectUrl", r)] := by
  have hesc : escapeChars r.data = r.data := escapeChars_safe r.data (safeStr_chars hs)
  have hl' : r.data.all (fun c => c.toNat ≤ 255) = true := hl
  have hq2 : (jsonQuote r).all (fun c => c.toNat ≤ 255) = true := by
    simp only [jsonQuote, hesc, List.all_cons, List.all_append, List.all_nil]
    simp [hl']
  have hall : (jsonStringifyObj [("redirectUrl", r)]).data.all (fun c => c.toNat ≤ 255) = true := by
    show ('{' :: ((jsonQuote "redirectUrl" ++ ':' :: jsonQuote r) ++ ['}'])).all
      (fun c => c.toNat ≤ 255) = true
    simp only [List.all_cons, List.all_append, hq2]
    simp [jsonQuote]
    decide
  have hbt : btoa (jsonStringifyObj [("redirectUrl", r)])
      = some ⟨b64EncodeBytes ((jsonStringifyObj [("redirectUrl", r)]).data.map Char.toNat)⟩ := by
    unfold btoa
    rw [if_pos hall]
  refine ⟨_, hbt, ?_⟩
  unfold decodeStatePayload
  rw [btoa_atob_roundtrip hbt]
  simp only [Option.some_bind]
  exact jsonParseObj_single (by decide) hs

/-- On a well-formed inbound state and a successful exchange, the mount
effect calls sign-in with exactly the payload's token, marks the token
check complete, and replaces the visible URL by the bare pathname. -/
theorem b64EncodeBytes_ne_nil (a : Nat) (l : List Nat) : b64EncodeBytes (a :: l) ≠ [] := by
  cases l with
  | nil => simp [b64EncodeBytes]
  | cons b l2 => cases l2 <;> simp [b64EncodeBytes]

/-- The encoded token payload is a nonempty string, hence truthy for the
source's `if (state)` check. -/
theorem encodeTokenState_ne_empty {token : String} {ru : Option String} {st : String}
    (henc : encodeTokenState token ru = some st) : st ≠ "" := by
  unfold encodeTokenState btoa at henc
  split at henc
  case isFalse => exact absurd henc (by simp)
  case isTrue =>
    injection henc with h
    subst h
    intro hbad
    have hdata : b64EncodeBytes ((jsonTokenPayload token ru).data.map Char.toNat) = [] := by
      have := congrArg String.data hbad
      simpa using this
    have hjd : (jsonTokenPayload token ru).data
        = '{' :: (fieldsChars (tokenStateFields token ru) ++ ['}']) := rfl
    rw [hjd] at hdata
    simp only [List.map_cons] at hdata
    exact b64EncodeBytes_ne_nil _ _ hdata

theorem initSequence_wellformed (loc : Location) (outcome : Option String → ExchangeOutcome)
    {token : String} {ru : Option String} {st : String} {u : UserT}
    (henc : encodeTokenState token ru = some st)
    (htok : safeStr token = true)
    (hru : ∀ r, ru = some r → safeStr r = true)
    (hparam : getParam loc.query "state" = some st)
    (hsucc : outcome (some token) = .success u) :
    initSequence loc outcome
      = .ok ⟨some (some token), true, ⟨loc.pathname, [], none⟩⟩ := by
  have hatob : atob st = some (jsonTokenPayload token ru) := btoa_atob_roundtrip henc
  have hparse : jsonParseObj (jsonTokenPayload token ru)
      = some (tokenStateFields token ru) := by
    cases ru with
    | none => exact jsonParseObj_single (by decide) htok
    | some r =>
      exact jsonParseObj_double (by decide) htok (by decide) (hru r rfl)
  have htf : tokenField (tokenStateFields token ru) = some token := by
    cases ru <;> simp [tokenField, tokenStateFields, getParam, List.find?]
  have hne : st ≠ "" := encodeTokenState_ne_empty henc
  unfold initSequence
  simp only [hparam]
  rw [if_neg hne]
  simp only [hatob, hparse, htf, hsucc]

theorem sessionFoldl_loading (events : List (Option UserT)) (s : SessionState)
    (h : events ≠ []) : (events.foldl sessionStep s).loading = false := by
  induction events generalizing s with
  | nil => exact absurd rfl h
  | cons u es ih =>
    cases es with
    | nil => rfl
    | cons v es2 => exact ih (sessionStep s u) (by simp)

/-! ## Witness fixtures -/

/-- Concrete configuration used by witnesses. -/
def cfgW : Config := ⟨"app.example.com", "https://host.example/", false⟩

/-- A mount location carrying `base64(JSON(\x7btoken: "abc"\x7d))`, an
unrelated query parameter and a fragment. -/
def locGood : Location :=
  ⟨"/app", [("state", "eyJ0b2tlbiI6ImFiYyJ9"), ("foo", "bar")], some "frag"⟩

/-- An exchange that accepts exactly the token `"abc"`. -/
def outcomeW : Option String → ExchangeOutcome :=
  fun t => if t = some "abc" then .success ⟨"u1"⟩ else .failure

/-- Claim C2: for every well-formed inbound `state` parameter equal to
`base64(JSON(\x7btoken, redirectUrl?\x7d))`, the initialization sequence
calls the SDK custom-token sign-in with exactly that token, and when the
call succeeds the visible URL afterwards no longer contains the `state`
parameter. -/
theorem claim_C2 (loc : Location) (outcome : Option String → ExchangeOutcome)
    (token : String) (ru : Option String) (st : String) (u : UserT)
    (henc : encodeTokenState token ru = some st)
    (htok : safeStr token = true)
    (hru : ∀ r, ru = some r → safeStr r = true)
    (hparam : getParam loc.query "state" = some st)
    (hsucc : outcome (some token) = .success u) :
    ∃ res, initSequence loc outcome = .ok res
      ∧ res.signInToken = some (some token)
      ∧ getParam res.finalLoc.query "state" = none :=
  ⟨_, initSequence_wellformed loc outcome henc htok hru hparam hsucc, rfl, rfl⟩

/-- Claim C2, witness: the concrete load with
`state = base64(JSON(\x7btoken: "abc"\x7d))` and a successful exchange. -/
theorem claim_C2_witness :
    ∃ res, initSequence locGood outcomeW = .ok res
      ∧ res.signInToken = some (some "abc")
      ∧ getParam res.finalLoc.query "state" = none :=
  claim_C2 locGood outcomeW "abc" none "eyJ0b2tlbiI6ImFiYyJ9" ⟨"u1"⟩ (by rfl) (by rfl)
    (fun r h => by cases h) (by rfl) (by rfl)

/-- Claim C10: on a successful token exchange the URL cleanup replaces the
visible URL by the bare pathname, so every query parameter (not only
`state`) and any fragment is removed. -/
theorem claim_C10 (loc : Location) (outcome : Option String → ExchangeOutcome)
    (token : String) (ru : Option String) (st : String) (u : UserT)
    (henc : encodeTokenState token ru = some st)
    (htok : safeStr token = true)
    (hru : ∀ r, ru = some r → safeStr r = true)
    (hparam : getParam loc.query "state" = some st)
    (hsucc : outcome (some token) = .success u) :
    ∃ res, initSequence loc outcome = .ok res
      ∧ res.finalLoc.pathname = loc.pathname
      ∧ res.finalLoc.query = []
      ∧ res.finalLoc.fragment = none
      ∧ ∀ k, getParam res.finalLoc.query k = none :=
  ⟨_, initSequence_wellformed loc outcome henc htok hru hparam hsucc,
    rfl, rfl, rfl, fun _ => rfl⟩

/-- Claim C10, witness: the unrelated parameter `foo` and the fragment
present at load do not survive the successful exchange. -/
theorem claim_C10_witness :
    ∃ res, initSequence locGood outcomeW = .ok res
      ∧ res.finalLoc.pathname = locGood.pathname
      ∧ res.finalLoc.query = []
      ∧ res.finalLoc.fragment = none
      ∧ ∀ k, getParam res.finalLoc.query k = none :=
  claim_C10 locGood outcomeW "abc" none "eyJ0b2tlbiI6ImFiYyJ9" ⟨"u1"⟩ (by rfl) (by rfl)
    (fun r h => by cases h) (by rfl) (by rfl)

/-- Claim C3: the `state` parameter of the URL navigated to by
`loginWithRedirect` (and `registerWithRedirect`) decodes to
`\x7bredirectUrl: override-or-default\x7d`: with a (truthy) override `X`
the decoded payload is `[("redirectUrl", X)]`, and with no params it is
`[("redirectUrl", <configured default>)]`. -/
theorem claim_C3 (cfg : Config) (X : String) (hne : X ≠ "")
    (hsX : safeStr X = true) (hlX : latin1 X = true)
    (hsD : safeStr cfg.redirectUrl = true) (hlD : latin1 cfg.redirectUrl = true) :
    (∃ st, V1.loginWithRedirect cfg ⟨some X⟩
        = some [Ev.navigate ("https://" ++ cfg.domain ++ "/" ++ "sign-in" ++ "?state=" ++ st)]
      ∧ V1.registerWithRedirect cfg ⟨some X⟩
        = some [Ev.navigate ("https://" ++ cfg.domain ++ "/" ++ "sign-up" ++ "?state=" ++ st)]
      ∧ decodeStatePayload st = some [("redirectUrl", X)])
    ∧ (∃ st, V1.loginWithRedirect cfg {}
        = some [Ev.navigate ("https://" ++ cfg.domain ++ "/" ++ "sign-in" ++ "?state=" ++ st)]
      ∧ V1.registerWithRedirect cfg {}
        = some [Ev.navigate ("https://" ++ cfg.domain ++ "/" ++ "sign-up" ++ "?state=" ++ st)]
      ∧ decodeStatePayload st = some [("redirectUrl", cfg.redirectUrl)]) := by
  constructor
  · obtain ⟨st, henc, hdec⟩ := encodeRedirectState_ok hsX hlX
    refine ⟨st, ?_, ?_, hdec⟩ <;>
      simp [V1.loginWithRedirect, V1.registerWithRedirect, authPageUrl, jsOr, hne, henc]
  · obtain ⟨st, henc, hdec⟩ := encodeRedirectState_ok hsD hlD
    refine ⟨st, ?_, ?_, hdec⟩ <;>
      simp [V1.loginWithRedirect, V1.registerWithRedirect, authPageUrl, jsOr, henc]

/-- Claim C3, witness at the concrete configuration and override
`X = "https://x.example/"`. -/
theorem claim_C3_witness :
    (∃ st, V1.loginWithRedirect cfgW ⟨some "https://x.example/"⟩
        = some [Ev.navigate ("https://" ++ cfgW.domain ++ "/" ++ "sign-in" ++ "?state=" ++ st)]
      ∧ V1.registerWithRedirect cfgW ⟨some "https://x.example/"⟩
        = some [Ev.navigate ("https://" ++ cfgW.domain ++ "/" ++ "sign-up" ++ "?state=" ++ st)]
      ∧ decodeStatePayload st = some [("redirectUrl", "https://x.example/")])
    ∧ (∃ st, V1.loginWithRedirect cfgW {}
        = some [Ev.navigate ("https://" ++ cfgW.domain ++ "/" ++ "sign-in" ++ "?state=" ++ st)]
      ∧ V1.registerWithRedirect cfgW {}
        = some [Ev.navigate ("https://" ++ cfgW.domain ++ "/" ++ "sign-up" ++ "?state=" ++ st)]
      ∧ decodeStatePayload st = some [("redirectUrl", cfgW.redirectUrl)]) :=
  claim_C3 cfgW "https://x.example/" (by decide) (by decide) (by decide) (by decide) (by decide)

/-- Claim C4, counterexample: `logout()` at the concrete configuration
performs the navigation before the sign-out call (`signOutPrecedesNav`
is false on its effect list), refuting the claim that the sign-out call
is awaited to completion before the redirect navigation occurs. -/
theorem claim_C4_counterexample :
    (V3.logout cfgW {}).map signOutPrecedesNav = some false := by rfl

/-- Claim C4, amended: every `logout` without `noRedirect` that
completes (with or without a `redirectUrl` override) produces the
effect order `[navigate url, signOut]` — the redirect navigation is
initiated first and the awaited sign-out call follows it; and the
no-params `logout()` produces exactly
`[navigate <sign-in URL>, signOut]` where the URL's `state` decodes to
`\x7bredirectUrl: <configured default>\x7d`. -/
theorem claim_C4 (cfg : Config) (params : V3.LogoutParams)
    (hnr : params.noRedirect = false)
    (hsD : safeStr cfg.redirectUrl = true) (hlD : latin1 cfg.redirectUrl = true) :
    (∀ evs, V3.logout cfg params = some evs →
        ∃ url, evs = [Ev.navigate url, Ev.signOutCall])
    ∧ (∃ st, V3.logout cfg {}
        = some [Ev.navigate ("https://" ++ cfg.domain ++ "/" ++ "sign-in" ++ "?state=" ++ st),
            Ev.signOutCall]
      ∧ decodeStatePayload st = some [("redirectUrl", cfg.redirectUrl)]) := by
  constructor
  · intro evs h
    unfold V3.logout at h
    rw [hnr] at h
    simp only [Bool.false_eq_true, if_false] at h
    cases hj : jsOrElse params.redirectUrl (authPageUrl cfg "sign-in" cfg.redirectUrl) with
    | none => rw [hj] at h; cases h
    | some url =>
      rw [hj] at h
      simp only [Option.map_some', Option.some.injEq] at h
      exact ⟨url, h.symm⟩
  · obtain ⟨st, henc, hdec⟩ := encodeRedirectState_ok hsD hlD
    refine ⟨st, ?_, hdec⟩
    simp [V3.logout, jsOrElse, authPageUrl, henc]

/-- Claim C4, witness for the amended theorem: a concrete logout with a
`redirectUrl` override navigates first and signs out second, and the
concrete no-params `logout()` at the same configuration navigates to
the decodable sign-in URL. -/
theorem claim_C4_witness :
    (∃ url, [Ev.navigate "https://w.example/", Ev.signOutCall]
        = [Ev.navigate url, Ev.signOutCall])
    ∧ (∃ st, V3.logout cfgW {}
        = some [Ev.navigate ("https://" ++ cfgW.domain ++ "/" ++ "sign-in" ++ "?state=" ++ st),
            Ev.signOutCall]
      ∧ decodeStatePayload st = some [("redirectUrl", cfgW.redirectUrl)]) :=
  ⟨(claim_C4 cfgW ⟨some "https://w.example/", false⟩ rfl (by decide) (by decide)).1
      [Ev.navigate "https://w.example/", Ev.signOutCall] (by rfl),
    (claim_C4 cfgW {} rfl (by decide) (by decide)).2⟩

/-- Claim C5: `isLoading` starts true, every auth-state event replaces
the session state with `\x7bloading: false, user: event user\x7d`, after
any nonempty event sequence it is false, and once false it never becomes
true again for the mount's lifetime. -/
theorem claim_C5 :
    sessionInit.loading = true
    ∧ (∀ s u, sessionStep s u = ⟨false, u⟩)
    ∧ (∀ events, events ≠ [] → (sessionRun events).loading = false)
    ∧ (∀ events more, (sessionRun events).loading = false →
        (sessionRun (events ++ more)).loading = false) := by
  refine ⟨rfl, fun s u => rfl, ?_, ?_⟩
  · intro events h
    exact sessionFoldl_loading events sessionInit h
  · intro events more h
    cases hm : more with
    | nil => simpa [sessionRun] using h
    | cons v es =>
      unfold sessionRun
      rw [List.foldl_append]
      exact sessionFoldl_loading (v :: es) _ (by simp)

/-- Claim C5, witness: a concrete event trace — after one event
`isLoading` is false, and stays false after further events. -/
theorem claim_C5_witness :
    (sessionRun [some ⟨"u1"⟩]).loading = false
    ∧ (sessionRun ([some ⟨"u1"⟩] ++ [none, some ⟨"u2"⟩])).loading = false :=
  ⟨claim_C5.2.2.1 [some ⟨"u1"⟩] (by simp),
    claim_C5.2.2.2 [some ⟨"u1"⟩] [none, some ⟨"u2"⟩]
      (claim_C5.2.2.1 [some ⟨"u1"⟩] (by simp))⟩

/-- Claim C6: `getLoginUrl` and `getRegisterUrl` perform no effect
(return the URL without navigating) and depend only on their params and
the configured domain and default redirect URL; concretely, with
domain `app.example.com` and default redirect `https://host.example/`,
`getRegisterUrl()` is exactly
`https://app.example.com/sign-up?state=` ++ the base64 of the
`\x7bredirectUrl\x7d` JSON. -/
theorem claim_C6 (cfg cfg2 : Config) (params : LoginParams)
    (hd : cfg2.domain = cfg.domain) (hr : cfg2.redirectUrl = cfg.redirectUrl) :
    (V3.getLoginUrl cfg params).2 = []
    ∧ (V3.getRegisterUrl cfg params).2 = []
    ∧ V3.getLoginUrl cfg2 params = V3.getLoginUrl cfg params
    ∧ V3.getRegisterUrl cfg2 params = V3.getRegisterUrl cfg params
    ∧ V3.getRegisterUrl ⟨"app.example.com", "https://host.example/", cfg.debug⟩ {}
        = (some ("https://app.example.com/sign-up?state="
            ++ "eyJyZWRpcmVjdFVybCI6Imh0dHBzOi8vaG9zdC5leGFtcGxlLyJ9"), [])
    ∧ btoa "\x7b\"redirectUrl\":\"https://host.example/\"\x7d"
        = some "eyJyZWRpcmVjdFVybCI6Imh0dHBzOi8vaG9zdC5leGFtcGxlLyJ9" := by
  refine ⟨rfl, rfl, ?_, ?_, by rfl, by rfl⟩
  · simp [V3.getLoginUrl, authPageUrl, hd, hr]
  · simp [V3.getRegisterUrl, authPageUrl, hd, hr]

/-- Claim C6, witness: two configurations agreeing on domain and default
redirect (differing in `debug`) produce identical getter results. -/
theorem claim_C6_witness :
    (V3.getLoginUrl cfgW {}).2 = []
    ∧ (V3.getRegisterUrl cfgW {}).2 = []
    ∧ V3.getLoginUrl ⟨"app.example.com", "https://host.example/", true⟩ {}
        = V3.getLoginUrl cfgW {}
    ∧ V3.getRegisterUrl ⟨"app.example.com", "https://host.example/", true⟩ {}
        = V3.getRegisterUrl cfgW {}
    ∧ V3.getRegisterUrl ⟨"app.example.com", "https://host.example/", cfgW.debug⟩ {}
        = (some ("https://app.example.com/sign-up?state="
            ++ "eyJyZWRpcmVjdFVybCI6Imh0dHBzOi8vaG9zdC5leGFtcGxlLyJ9"), [])
    ∧ btoa "\x7b\"redirectUrl\":\"https://host.example/\"\x7d"
        = some "eyJyZWRpcmVjdFVybCI6Imh0dHBzOi8vaG9zdC5leGFtcGxlLyJ9" :=
  claim_C6 cfgW ⟨"app.example.com", "https://host.example/", true⟩ {} rfl rfl

/-- Claim C7: `logout(\x7bnoRedirect: true\x7d)` calls sign-out and
performs no navigation, and every `logout` invocation that completes
performs the sign-out call whether or not navigation is suppressed. -/
theorem claim_C7 :
    (∀ cfg r, V3.logout cfg ⟨r, true⟩ = some [Ev.signOutCall])
    ∧ (∀ cfg params evs, V3.logout cfg params = some evs → Ev.signOutCall ∈ evs) := by
  constructor
  · intro cfg r
    rfl
  · intro cfg params evs h
    unfold V3.logout at h
    split at h
    · cases h
      simp
    · cases hj : jsOrElse params.redirectUrl (authPageUrl cfg "sign-in" cfg.redirectUrl) with
      | none => rw [hj] at h; cases h
      | some url => rw [hj] at h; cases h; simp

/-- Claim C7, witness: a concrete suppressed-navigation logout and a
concrete completed logout both perform the sign-out call. -/
theorem claim_C7_witness :
    V3.logout cfgW ⟨none, true⟩ = some [Ev.signOutCall]
    ∧ Ev.signOutCall ∈ [Ev.navigate "https://z.example/", Ev.signOutCall] :=
  ⟨claim_C7.1 cfgW none,
    claim_C7.2 cfgW ⟨some "https://z.example/", false⟩
      [Ev.navigate "https://z.example/", Ev.signOutCall] (by rfl)⟩

/-- Claim C8: `logout(\x7bredirectUrl: U\x7d)` stores `U` in the
`logoutUrl` ref; the next `getAuthUrl` call returns `U` and clears the
ref; with the ref cleared, `getAuthUrl` constructs its URL from its own
params and the configured domain/default. -/
theorem claim_C8 (cfg : Config) (U : String) (hU : U ≠ "") (st0 : Option String)
    (p p2 : V1.AuthUrlParams) :
    V1.logout cfg ⟨some U⟩ st0 = some (some U, [Ev.signOutCall])
    ∧ V1.getAuthUrl cfg p (some U) = some (U, none, [])
    ∧ V1.getAuthUrl cfg p2 none
        = (authPageUrl cfg (jsOr p2.page "sign-in") (jsOr p2.redirectUrl cfg.redirectUrl)).map
            (fun u => (u, none, [])) := by
  refine ⟨?_, ?_, rfl⟩
  · simp [V1.logout, jsOrElse, hU]
  · simp [V1.getAuthUrl, jsOrElse, hU]

/-- Claim C8, witness at a concrete override URL and params. -/
theorem claim_C8_witness :
    V1.logout cfgW ⟨some "https://u.example/"⟩ none
        = some (some "https://u.example/", [Ev.signOutCall])
    ∧ V1.getAuthUrl cfgW {} (some "https://u.example/")
        = some ("https://u.example/", none, [])
    ∧ V1.getAuthUrl cfgW ⟨some "https://y.example/", some "sign-up"⟩ none
        = (authPageUrl cfgW
              (jsOr (some "sign-up") "sign-in")
              (jsOr (some "https://y.example/") cfgW.redirectUrl)).map
            (fun u => (u, none, [])) :=
  claim_C8 cfgW "https://u.example/" (by decide) none {}
    ⟨some "https://y.example/", some "sign-up"⟩

/-- Claim C9: every published context value satisfies
`isAuthenticated = (user is present)`, and its `\x7bloading, user\x7d`
pair comes from the one current session state (and the provider only
publishes once loading is false). -/
theorem claim_C9 (s : SessionState) (v : ContextValue) (h : publish s = some v) :
    v.isAuthenticated = v.user.isSome
    ∧ v.isLoading = s.loading
    ∧ v.user = s.user
    ∧ v.isLoading = false := by
  unfold publish at h
  split at h
  · cases h
  case isFalse hload =>
    cases h
    exact ⟨rfl, rfl, rfl, by simpa using hload⟩

/-- Claim C9, witness at a concrete authenticated session state. -/
theorem claim_C9_witness :
    (⟨false, true, some ⟨"u1"⟩⟩ : ContextValue).isAuthenticated
        = (⟨false, true, some ⟨"u1"⟩⟩ : ContextValue).user.isSome
    ∧ (⟨false, true, some ⟨"u1"⟩⟩ : ContextValue).isLoading
        = (⟨false, some ⟨"u1"⟩⟩ : SessionState).loading
    ∧ (⟨false, true, some ⟨"u1"⟩⟩ : ContextValue).user
        = (⟨false, some ⟨"u1"⟩⟩ : SessionState).user
    ∧ (⟨false, true, some ⟨"u1"⟩⟩ : ContextValue).isLoading = false :=
  claim_C9 ⟨false, some ⟨"u1"⟩⟩ ⟨false, true, some ⟨"u1"⟩⟩ (by rfl)

end Firefuse
